import Mathlib

/-!
Verification of the celo file-encryption engine.

Shallow embedding of the Go sources: `metadata.go`, `celo.go`, `encrypter.go`,
`phrase.go`, the cipher/decrypter file, and the `errors` package.  Bytes are
modelled as `Nat`, Go byte slices as `List Nat` (a `nil` slice as `none` of
`Option (List Nat)`), `io.Reader` sources and the random stream as `List Nat`
consumed from the front, and `io.Writer` sinks as per-call behaviours.

The external cryptographic primitives (`golang.org/x/crypto/argon2.IDKey`,
`crypto/aes` + `crypto/cipher.NewGCM`) are modelled by executable deterministic
stand-ins that satisfy the library contracts the repository relies on:
the KDF is a pure function of (phrase, salt, parameters) returning `keyLen`
bytes, and the AEAD seals by appending a 16-byte tag that `Open` re-computes
and checks, so that Open(key, nonce, Seal(key, nonce, p)) = p and a tag
mismatch yields a failure.
-/

/-- Equality of `Except` results is decidable when it is on both components. -/
instance {ε α : Type} [DecidableEq ε] [DecidableEq α] : DecidableEq (Except ε α) :=
  fun x y =>
    match x, y with
    | Except.error a, Except.error b => decidable_of_iff (a = b) (by simp)
    | Except.error _, Except.ok _ => isFalse (by simp)
    | Except.ok _, Except.error _ => isFalse (by simp)
    | Except.ok a, Except.ok b => decidable_of_iff (a = b) (by simp)

namespace Celo

/-- Error kinds, mirroring the `Kind` constants of `errors/errors.go`
(order preserved). -/
inductive Kind where
  | Other
  | Invalid
  | PhraseIsEmpty
  | PhraseMismatch
  | PhraseOther
  | Permissions
  | Create
  | Open
  | Exist
  | NotExist
  | IsDir
  | Pattern
  | Signature
  | Metadata
  | NotReady
  | BlockSize
  | Nonce
  | NonceSize
  | Salt
  | SaltSize
  | Ciphertext
  | Cipher
  | Plaintext
  | Encode
  | Decode
  | Incompatible
  | Decrypt
  | Encrypt
  | Internal
  deriving DecidableEq, Repr

/-- `Aes256BlockSize` from `celo.go`. -/
def Aes256BlockSize : Nat := 32

/-- `SaltSize` from `celo.go`. -/
def SaltSize : Nat := 32

/-- `NonceSize` from `celo.go`. -/
def NonceSize : Nat := 12

/-- `Version` from `celo.go`. -/
def Version : Nat := 1

/-- `MinVersion` from `celo.go`. -/
def MinVersion : Nat := 1

/-- `MaxVersion` from `celo.go`. -/
def MaxVersion : Nat := 1

/-- `SignatureSize` from `metadata.go`. -/
def SignatureSize : Nat := 32

/-- `signatureHeader` from `metadata.go`: the 8 magic bytes `..CELO..`. -/
def signatureHeader : List Nat := [0x0A, 0x1A, 0x43, 0x45, 0x4C, 0x4F, 0x0A, 0x1A]

/-- `versionIndex` from `metadata.go`. -/
def versionIndex : Nat := 0

/-- `saltSizeIndex` from `metadata.go`. -/
def saltSizeIndex : Nat := 1

/-- `blockSizeIndex` from `metadata.go`. -/
def blockSizeIndex : Nat := 2

/-- `nonceSizeIndex` from `metadata.go`. -/
def nonceSizeIndex : Nat := 3

/-- `Metadata` from `metadata.go`: 8 signature bytes, the 4 `vsbn` bytes
(version, saltSize, blockSize, nonceSize) and 20 reserved bytes. -/
structure Metadata where
  signature : List Nat
  vsbn : List Nat
  reserved : List Nat
  deriving DecidableEq, Repr

/-- `Metadata.Bytes` from `metadata.go`: the 8 signature bytes and the 4 `vsbn`
bytes are copied into a zeroed 32-byte buffer; the 20 reserved bytes of the
struct are never copied, the buffer keeps zeros there. -/
def Metadata.bytes (m : Metadata) : List Nat :=
  m.signature ++ m.vsbn ++ List.replicate 20 0

/-- `ValidateMetadata` from `metadata.go`.  Returns the error `Kind` raised, or
`none` on success.  Note the source really does return the `errors.NonceSize`
kind on the block-size check (the `errors.BlockSize` kind exists but is never
used anywhere in the repository). -/
def ValidateMetadata (signature vsbn _reserved : List Nat) : Option Kind :=
  if signature ≠ signatureHeader then
    some Kind.Signature
  else if vsbn.getD versionIndex 0 < MinVersion ∨ MaxVersion < vsbn.getD versionIndex 0 then
    some Kind.Incompatible
  else if vsbn.getD blockSizeIndex 0 ≠ 16 ∧ vsbn.getD blockSizeIndex 0 ≠ 32 then
    some Kind.NonceSize
  else if 32 < vsbn.getD nonceSizeIndex 0 then
    some Kind.NonceSize
  else
    none

/-- `DecodeMetadata` from `metadata.go`.  Input is the remaining bytes of the
reader; result is (metadata or error kind, returned byte count `n`, bytes left
in the reader).  In the source each `io.ReadFull` count is bound by `:=`
inside an `if`, shadowing the outer counters (`n`, `vn`, `rn`), so the outer
accumulator never receives the successful counts: on success `n` is returned
as `0`, and on a failing read only the shadowed count of that read (plus the
outer `n`, still `0`) is returned. -/
def DecodeMetadata (src : List Nat) : Except Kind Metadata × Nat × List Nat :=
  let signature := src.take 8
  let r1 := src.drop 8
  if src.length < 8 then
    (Except.error Kind.Metadata, src.length, r1)
  else
    let vsbn := r1.take 4
    let r2 := r1.drop 4
    if r1.length < 4 then
      (Except.error Kind.Metadata, 0 + r1.length, r2)
    else
      let reserved := r2.take 20
      let r3 := r2.drop 20
      if r2.length < 20 then
        (Except.error Kind.Metadata, 0 + r2.length, r3)
      else
        match ValidateMetadata signature vsbn reserved with
        | some k => (Except.error k, 0, r3)
        | none => (Except.ok ⟨signature, vsbn, reserved⟩, 0, r3)

/-- `newCurrentMetadata` from `metadata.go`: metadata built from the running
version's constants. -/
def newCurrentMetadata : Metadata :=
  { signature := signatureHeader
    vsbn := [Version, SaltSize, Aes256BlockSize, NonceSize]
    reserved := List.replicate 20 0 }

/-! ### Model of the external cryptographic primitives -/

/-- Byte-mixing step for the executable stand-ins of the external primitives. -/
def mixByte (acc b : Nat) : Nat := (acc * 131 + b + 1) % 65521

/-- Deterministic byte expansion used by the stand-ins: `n` bytes derived from
a seed. -/
def prfBytes (seed n : Nat) : List Nat :=
  (List.range n).map (fun i => (seed * (i + 2) + i * i + 1) % 256)

/-- Model of `golang.org/x/crypto/argon2.IDKey`: a pure deterministic function
of phrase, salt and the cost parameters, returning `keyLen` bytes. -/
def argon2IDKey (phrase salt : List Nat) (time memory threads keyLen : Nat) : List Nat :=
  prfBytes (mixByte (phrase.foldl mixByte (time + memory + threads))
                    (salt.foldl mixByte 99)) keyLen

/-- `GenerateKey` from `phrase.go`: argon2 IDKey with time 1, memory 64*1024,
4 threads and `blockSize` output bytes. -/
def GenerateKey (phrase salt : List Nat) (blockSize : Nat) : List Nat :=
  argon2IDKey phrase salt 1 (64 * 1024) 4 blockSize

/-- `NewSalt` from `phrase.go`: fills `saltSize` bytes from the random source.
The random source is modelled by the list `rng` consumed from the front;
result is ((salt, count) or the `Salt` error kind, remaining random bytes). -/
def NewSalt (saltSize : Nat) (rng : List Nat) : Except Kind (List Nat × Nat) × List Nat :=
  if rng.length < saltSize then
    (Except.error Kind.Salt, rng.drop saltSize)
  else
    (Except.ok (rng.take saltSize, saltSize), rng.drop saltSize)

/-- The nonce size of Go's standard GCM mode (`crypto/cipher.NewGCM`). -/
def gcmStandardNonceSize : Nat := 12

/-- The tag size appended by GCM's `Seal`. -/
def gcmTagSize : Nat := 16

/-- Model of the GCM authentication tag: 16 bytes determined by key, nonce,
payload and additional data. -/
def gcmTag (key nonce data ad : List Nat) : List Nat :=
  prfBytes (mixByte (mixByte (key.foldl mixByte 3) (nonce.foldl mixByte 5))
                    (mixByte (data.foldl mixByte 7) (ad.foldl mixByte 11))) gcmTagSize

/-- Model of `cipher.AEAD.Seal` for GCM: the ciphertext is the plaintext with
the 16-byte authentication tag appended. -/
def gcmSeal (key nonce plaintext ad : List Nat) : List Nat :=
  plaintext ++ gcmTag key nonce plaintext ad

/-- Model of `cipher.AEAD.Open` for GCM: splits off the 16-byte tag,
re-computes it and compares; any mismatch (or a too-short input) fails. -/
def gcmOpen (key nonce ciphertext ad : List Nat) : Option (List Nat) :=
  if ciphertext.length < gcmTagSize then
    none
  else
    let payload := ciphertext.take (ciphertext.length - gcmTagSize)
    if gcmTag key nonce payload ad = ciphertext.drop (ciphertext.length - gcmTagSize) then
      some payload
    else
      none

/-- `Cipher` from the cipher file: the stored block size and the AEAD, the
latter modelled by the AES key it was built from. -/
structure Cipher where
  blockSize : Nat
  key : List Nat
  deriving DecidableEq, Repr

/-- `NewCipher` from the cipher file.  `aes.NewCipher` rejects keys whose
length is not 16, 24 or 32; `cipher.NewGCM` then succeeds with the standard
12-byte nonce size.  The `nonceSize` argument is not used by the source either. -/
def NewCipher (blockSize _nonceSize : Nat) (key : List Nat) : Except Kind Cipher :=
  if key.length = 16 ∨ key.length = 24 ∨ key.length = 32 then
    Except.ok { blockSize := blockSize, key := key }
  else
    Except.error Kind.Cipher

/-- `Cipher.Encrypt` from the cipher file: draws a fresh 12-byte nonce from
the random source (the `Encrypt` error kind if it runs short) and seals the
plaintext; returns ((nonce, ciphertext) or error, remaining random bytes). -/
def Cipher.encrypt (c : Cipher) (plaintext ad : List Nat) (rng : List Nat) :
    Except Kind (List Nat × List Nat) × List Nat :=
  if rng.length < gcmStandardNonceSize then
    (Except.error Kind.Encrypt, rng.drop gcmStandardNonceSize)
  else
    let nonce := rng.take gcmStandardNonceSize
    (Except.ok (nonce, gcmSeal c.key nonce plaintext ad), rng.drop gcmStandardNonceSize)

/-- `Cipher.Decrypt` from the cipher file: opens with no additional data; any
authentication failure is the generic `Decrypt` error kind. -/
def Cipher.decrypt (c : Cipher) (nonce ciphertext : List Nat) : Except Kind (List Nat) :=
  match gcmOpen c.key nonce ciphertext [] with
  | some plaintext => Except.ok plaintext
  | none => Except.error Kind.Decrypt

/-! ### The shared session state (`celo` struct of `celo.go`) -/

/-- The `celo` base struct from `celo.go`, embedded by both `Encrypter` and
`Decrypter`.  Go `nil` slices and pointers are `none`. -/
structure celo where
  metadata : Option Metadata
  blockSize : Nat
  saltSize : Nat
  nonceSize : Nat
  salt : Option (List Nat)
  nonce : Option (List Nat)
  ciphertext : Option (List Nat)
  cipher : Option Cipher
  ext : List Char
  preserveKey : Bool
  initialized : Bool
  deriving DecidableEq, Repr

/-- `celo.IsReady` from `celo.go`. -/
def celo.IsReady (c : celo) : Bool := c.initialized

/-- `celo.Wipe` from `celo.go`: dereferences nonce, ciphertext, salt and
cipher, and marks the instance as not initialized. -/
def celo.Wipe (c : celo) : celo :=
  { c with
    nonce := none
    ciphertext := none
    salt := none
    cipher := none
    initialized := false }

/-- `Extension` constant from `celo.go`. -/
def Extension : List Char := "celo".toList

/-- `celo.GetEncryptedFileName` from `celo.go`, as a function of the configured
extension and the file name. -/
def GetEncryptedFileName (ext name : List Char) : List Char :=
  if ext = [] then
    name
  else
    let e := if ['.'].isPrefixOf ext then ext else '.' :: ext
    name ++ e

/-- `celo.GetDecryptedFileName` from `celo.go`, as a function of the configured
extension and the file name: strips the (dotted) extension suffix only when
present and when the name is not exactly the dotted extension. -/
def GetDecryptedFileName (ext name : List Char) : List Char :=
  if ext = [] then
    name
  else
    let e := if ['.'].isPrefixOf ext then ext else '.' :: ext
    if e.isSuffixOf name ∧ name ≠ e then
      name.take (name.length - e.length)
    else
      name

/-! ### Encrypter (`encrypter.go`) -/

/-- `NewEncrypter` from `encrypter.go`: package defaults, current metadata. -/
def NewEncrypter : celo :=
  { metadata := some newCurrentMetadata
    blockSize := Aes256BlockSize
    saltSize := SaltSize
    nonceSize := NonceSize
    salt := none
    nonce := none
    ciphertext := none
    cipher := none
    ext := Extension
    preserveKey := false
    initialized := false }

/-- `Encrypter.Init` from `encrypter.go`.  Returns (new state, remaining
random bytes, error kind).  Note the source's order: when not taking the
preserve-key early return it sets `initialized = true` *before* generating the
salt, and `e.salt, _, err = NewSalt(..)` assigns the (nil-on-error) salt
unconditionally. -/
def Encrypter.Init (e : celo) (secretPhrase : List Nat) (rng : List Nat) :
    celo × List Nat × Option Kind :=
  if e.initialized ∧ e.preserveKey then
    (e, rng, none)
  else
    let e1 := { e with initialized := true }
    match NewSalt e.saltSize rng with
    | (Except.error k, rng') => ({ e1 with salt := none }, rng', some k)
    | (Except.ok (salt, _), rng') =>
      let e2 := { e1 with salt := some salt }
      match NewCipher e.blockSize e.nonceSize (GenerateKey secretPhrase salt e.blockSize) with
      | Except.error k => (e2, rng', some k)
      | Except.ok c => ({ e2 with cipher := some c }, rng', none)

/-- `Encrypter.Encrypt` from `encrypter.go`: `Init`, then the cipher's
`Encrypt` with no additional data; stores the nonce and ciphertext.  A `nil`
cached cipher after a successful `Init` would be a nil-pointer dereference in
the source (modelled as the `Internal` kind; unreachable in these flows). -/
def Encrypter.Encrypt (e : celo) (secretPhrase plaintext : List Nat) (rng : List Nat) :
    celo × List Nat × Except Kind (List Nat) :=
  match Encrypter.Init e secretPhrase rng with
  | (e1, rng1, some k) => (e1, rng1, Except.error k)
  | (e1, rng1, none) =>
    match e1.cipher with
    | none => (e1, rng1, Except.error Kind.Internal)
    | some c =>
      match Cipher.encrypt c plaintext [] rng1 with
      | (Except.error k, rng2) => ({ e1 with ciphertext := none }, rng2, Except.error k)
      | (Except.ok (nonce, ct), rng2) =>
        ({ e1 with ciphertext := some ct, nonce := some nonce }, rng2, Except.ok ct)

/-- Behaviour of one `io.Writer.Write` call of the sink: `none` means the call
writes the whole chunk and succeeds, `some k` means it fails having flushed
`k` bytes of the chunk. -/
def wWrite (sink : Nat → Option Nat) (i : Nat) (chunk : List Nat) :
    List Nat × Nat × Bool :=
  match sink i with
  | none => (chunk, chunk.length, true)
  | some k => (chunk.take k, min k chunk.length, false)

/-- The sink whose writes all succeed. -/
def sinkOk : Nat → Option Nat := fun _ => none

/-- `Encrypter.Write` from `encrypter.go`.  Result: (bytes that reached the
sink, returned count `n`, error kind).  The source checks only `IsReady()`
(the `initialized` flag).  As in `DecodeMetadata`, every successful write
count is bound to an `if`-scoped variable shadowing the outer `sn`/`n`/`nn`/
`cn`, so the outer accumulators stay `0`: the function returns `0` on success,
and on a failing write the shadowed count of that call plus the outer
accumulators (still `0`). -/
def Encrypter.Write (e : celo) (sink : Nat → Option Nat) :
    List Nat × Nat × Option Kind :=
  if ¬ e.IsReady then
    ([], 0, some Kind.NotReady)
  else
    match e.metadata with
    | none => ([], 0, some Kind.Internal)
    | some md =>
      let (w0, c0, ok0) := wWrite sink 0 md.bytes
      if ¬ ok0 then (w0, c0, some Kind.Encode)
      else
        let (w1, c1, ok1) := wWrite sink 1 (e.salt.getD [])
        if ¬ ok1 then (w0 ++ w1, c1 + 0, some Kind.Encode)
        else
          let (w2, c2, ok2) := wWrite sink 2 (e.nonce.getD [])
          if ¬ ok2 then (w0 ++ w1 ++ w2, 0 + c2, some Kind.Encode)
          else
            let (w3, c3, ok3) := wWrite sink 3 (e.ciphertext.getD [])
            if ¬ ok3 then (w0 ++ w1 ++ w2 ++ w3, 0 + c3, some Kind.Encode)
            else (w0 ++ w1 ++ w2 ++ w3, 0 + 0, none)

/-! ### Decrypter -/

/-- `NewDecrypter`: package defaults, no metadata. -/
def NewDecrypter : celo :=
  { metadata := none
    blockSize := Aes256BlockSize
    saltSize := SaltSize
    nonceSize := NonceSize
    salt := none
    nonce := none
    ciphertext := none
    cipher := none
    ext := Extension
    preserveKey := false
    initialized := false }

/-- `Decrypter.initCipher`: builds the cipher from the phrase and the stored
salt and caches it on success. -/
def Decrypter.initCipher (d : celo) (secretPhrase : List Nat) : celo × Option Kind :=
  match NewCipher d.blockSize d.nonceSize
      (GenerateKey secretPhrase (d.salt.getD []) d.blockSize) with
  | Except.error k => (d, some k)
  | Except.ok c => ({ d with cipher := some c }, none)

/-- `Decrypter.Decrypt`: requires the initialized flag; builds and caches the
cipher from the phrase only when none is cached; then opens the stored
nonce/ciphertext.  Returns (new state, plaintext or error kind). -/
def Decrypter.Decrypt (d : celo) (secretPhrase : List Nat) :
    celo × Except Kind (List Nat) :=
  if ¬ d.IsReady then
    (d, Except.error Kind.NotReady)
  else
    match d.cipher with
    | some c => (d, Cipher.decrypt c (d.nonce.getD []) (d.ciphertext.getD []))
    | none =>
      match Decrypter.initCipher d secretPhrase with
      | (d1, some k) => (d1, Except.error k)
      | (d1, none) =>
        match d1.cipher with
        | some c => (d1, Cipher.decrypt c (d1.nonce.getD []) (d1.ciphertext.getD []))
        | none => (d1, Except.error Kind.Internal)

/-- `Decrypter.Read`: decodes the metadata, then reads salt, nonce and the
remaining bytes as ciphertext; invalidates the cached cipher when the salt
changes; marks the instance initialized.  Returns (new state, returned count
`n`, error kind).  The salt/nonce read counts are `if`-scope shadowed as in
`Encrypter.Write`, so the returned `n` on success is just the ciphertext
length (the count returned by `DecodeMetadata` being itself `0`). -/
def Decrypter.Read (d : celo) (src : List Nat) : celo × Nat × Option Kind :=
  match DecodeMetadata src with
  | (Except.error k, n, _) => (d, n, some k)
  | (Except.ok md, n, rest) =>
    let d1 := { d with metadata := some md }
    let salt := rest.take d.saltSize
    let rest2 := rest.drop d.saltSize
    if rest.length < d.saltSize then
      (d1, n + rest.length, some Kind.Salt)
    else
      let d2 :=
        match d1.salt with
        | none => { d1 with salt := some salt, cipher := none }
        | some old =>
          if salt ≠ old then { d1 with salt := some salt, cipher := none } else d1
      let nonce := rest2.take d.nonceSize
      let rest3 := rest2.drop d.nonceSize
      if rest2.length < d.nonceSize then
        ({ d2 with nonce := some (rest2 ++ List.replicate (d.nonceSize - rest2.length) 0) },
         n + rest2.length, some Kind.Nonce)
      else
        let d3 := { d2 with nonce := some nonce }
        let d4 := { d3 with ciphertext := some rest3, initialized := true }
        (d4, n + rest3.length, none)

/-! ### Helper definitions and lemmas for the theorems -/

/-- The extension with its leading dot enforced, as both naming helpers
compute it. -/
def dotExt (ext : List Char) : List Char :=
  if ['.'].isPrefixOf ext then ext else '.' :: ext

/-- `GenerateKey` returns exactly `blockSize` bytes. -/
theorem length_GenerateKey (phrase salt : List Nat) (blockSize : Nat) :
    (GenerateKey phrase salt blockSize).length = blockSize := by
  simp [GenerateKey, argon2IDKey, prfBytes]

/-- The GCM tag always has 16 bytes. -/
theorem length_gcmTag (key nonce data ad : List Nat) :
    (gcmTag key nonce data ad).length = gcmTagSize := by
  simp [gcmTag, prfBytes]

/-- The AEAD model satisfies the library contract: opening a sealed message
with the same key and nonce recovers the plaintext. -/
theorem gcmOpen_gcmSeal (key nonce pt ad : List Nat) :
    gcmOpen key nonce (gcmSeal key nonce pt ad) ad = some pt := by
  have hlen : (gcmSeal key nonce pt ad).length = pt.length + gcmTagSize := by
    simp [gcmSeal, length_gcmTag]
  have hsub : (gcmSeal key nonce pt ad).length - gcmTagSize = pt.length := by
    omega
  have htake : (gcmSeal key nonce pt ad).take (pt.length) = pt :=
    List.take_left' rfl
  have hdrop : (gcmSeal key nonce pt ad).drop (pt.length) = gcmTag key nonce pt ad :=
    List.drop_left' rfl
  unfold gcmOpen
  rw [if_neg (by omega), hsub, htake, hdrop, if_pos rfl]

/-- A successful default `Encrypt` run: salt from the first 32 random bytes,
nonce from the next 12, ciphertext sealed under the argon2-derived key. -/
theorem Encrypter.Encrypt_default (P K rng : List Nat) (h : 44 ≤ rng.length) :
    Encrypter.Encrypt NewEncrypter K P rng =
      ({ NewEncrypter with
          initialized := true
          salt := some (rng.take 32)
          cipher := some ⟨32, GenerateKey K (rng.take 32) 32⟩
          nonce := some ((rng.drop 32).take 12)
          ciphertext := some (gcmSeal (GenerateKey K (rng.take 32) 32)
            ((rng.drop 32).take 12) P []) },
       (rng.drop 32).drop 12,
       Except.ok (gcmSeal (GenerateKey K (rng.take 32) 32) ((rng.drop 32).take 12) P [])) := by
  have h32 : ¬ (rng.length < 32) := by omega
  have h12 : ¬ ((rng.drop 32).length < 12) := by
    rw [List.length_drop]
    omega
  have h12' : ¬ (rng.length - 32 < 12) := by omega
  have hk : (GenerateKey K (rng.take 32) 32).length = 32 := length_GenerateKey K _ 32
  simp [Encrypter.Encrypt, Encrypter.Init, NewEncrypter, NewSalt, NewCipher, Cipher.encrypt,
    SaltSize, Aes256BlockSize, NonceSize, Extension, gcmStandardNonceSize, h32, h12, h12', hk]

/-- On a ready session with an all-success sink, `Write` flushes metadata,
salt, nonce and ciphertext in order (and returns count `0`, see C2). -/
theorem Encrypter.Write_ready (e : celo) (md : Metadata) (h : e.initialized = true)
    (hm : e.metadata = some md) :
    Encrypter.Write e sinkOk =
      (md.bytes ++ e.salt.getD [] ++ e.nonce.getD [] ++ e.ciphertext.getD [], 0, none) := by
  simp [Encrypter.Write, celo.IsReady, h, hm, wWrite, sinkOk]

/-- `DecodeMetadata` on the current header followed by anything: succeeds,
consumes exactly the 32 header bytes and leaves the tail. -/
theorem DecodeMetadata_current (tail : List Nat) :
    DecodeMetadata (newCurrentMetadata.bytes ++ tail) = (Except.ok newCurrentMetadata, 0, tail) := by
  have hb : newCurrentMetadata.bytes ++ tail =
      signatureHeader ++ ([1, 32, 32, 12] ++ (List.replicate 20 0 ++ tail)) := by
    simp [Metadata.bytes, newCurrentMetadata, Version, SaltSize, Aes256BlockSize, NonceSize]
  have t8 : (signatureHeader ++ ([1, 32, 32, 12] ++ (List.replicate 20 0 ++ tail))).take 8
      = signatureHeader := List.take_left' rfl
  have d8 : (signatureHeader ++ ([1, 32, 32, 12] ++ (List.replicate 20 0 ++ tail))).drop 8
      = [1, 32, 32, 12] ++ (List.replicate 20 0 ++ tail) := List.drop_left' rfl
  have t4 : ([1, 32, 32, 12] ++ (List.replicate 20 0 ++ tail)).take 4
      = ([1, 32, 32, 12] : List Nat) := List.take_left' rfl
  have d4 : ([1, 32, 32, 12] ++ (List.replicate 20 0 ++ tail)).drop 4
      = List.replicate 20 0 ++ tail := List.drop_left' rfl
  have t20 : ((List.replicate 20 0 : List Nat) ++ tail).take 20
      = List.replicate 20 0 := List.take_left' (by simp)
  have d20 : ((List.replicate 20 0 : List Nat) ++ tail).drop 20 = tail :=
    List.drop_left' (by simp)
  have l1 : ¬ ((signatureHeader ++ ([1, 32, 32, 12] ++
      (List.replicate 20 0 ++ tail))).length < 8) := by
    simp [signatureHeader]
  have l2 : ¬ (([1, 32, 32, 12] ++ (List.replicate 20 0 ++ tail)).length < 4) := by
    simp
  have l3 : ¬ (((List.replicate 20 0 : List Nat) ++ tail).length < 20) := by
    simp
  have hv : ValidateMetadata signatureHeader [1, 32, 32, 12] (List.replicate 20 0) = none := by
    decide
  rw [hb]
  rw [DecodeMetadata]
  rw [t8, d8, if_neg l1, t4, d4, if_neg l2, t20, d20, if_neg l3, hv]
  simp [newCurrentMetadata, Version, SaltSize, Aes256BlockSize, NonceSize]

/-- `Decrypter.Read` on a well-formed envelope loads salt, nonce and
ciphertext and marks the session initialized. -/
theorem Decrypter.Read_envelope (s nn ct : List Nat) (hs : s.length = 32) (hn : nn.length = 12) :
    Decrypter.Read NewDecrypter (newCurrentMetadata.bytes ++ (s ++ (nn ++ ct))) =
      ({ NewDecrypter with
          metadata := some newCurrentMetadata
          salt := some s
          nonce := some nn
          ciphertext := some ct
          initialized := true },
       ct.length, none) := by
  have ts : (s ++ (nn ++ ct)).take 32 = s := List.take_left' hs
  have ds : (s ++ (nn ++ ct)).drop 32 = nn ++ ct := List.drop_left' hs
  have ls : ¬ ((s ++ (nn ++ ct)).length < 32) := by
    simp [hs]
  have tn : (nn ++ ct).take 12 = nn := List.take_left' hn
  have dn : (nn ++ ct).drop 12 = ct := List.drop_left' hn
  have ln : ¬ ((nn ++ ct).length < 12) := by
    simp [hn]
  rw [Decrypter.Read, DecodeMetadata_current]
  simp only [NewDecrypter, SaltSize, NonceSize]
  rw [ts, ds, if_neg ls, tn, dn, if_neg ln]
  simp

/-- Decrypting a loaded session whose ciphertext was sealed under the key
derived from the same phrase and salt recovers the plaintext. -/
theorem Decrypter.Decrypt_after_load (s nn P K : List Nat) (md : Metadata) :
    (Decrypter.Decrypt
      { NewDecrypter with
          metadata := some md
          salt := some s
          nonce := some nn
          ciphertext := some (gcmSeal (GenerateKey K s 32) nn P [])
          initialized := true } K).2 = Except.ok P := by
  have hk : (GenerateKey K s 32).length = 32 := length_GenerateKey K s 32
  simp [Decrypter.Decrypt, celo.IsReady, Decrypter.initCipher, NewDecrypter, NewCipher,
    Aes256BlockSize, NonceSize, hk, Cipher.decrypt, gcmOpen_gcmSeal]

/-! ### Claim theorems -/

/-- C1: the full round trip.  For any plaintext `P`, passphrase `K` and
random stream with at least 44 bytes (32 for the salt, 12 for the nonce):
a default `Encrypter` successfully encrypts, `Write` serializes the envelope
with no error, a default `Decrypter` reads it back with no error, and
`Decrypt` with the same passphrase returns exactly `P`. -/
theorem roundtrip_claim (P K rng : List Nat) (h : 44 ≤ rng.length) :
    ∃ ct : List Nat,
      (Encrypter.Encrypt NewEncrypter K P rng).2.2 = Except.ok ct ∧
      (Encrypter.Write (Encrypter.Encrypt NewEncrypter K P rng).1 sinkOk).2.2 = none ∧
      (Decrypter.Read NewDecrypter
          (Encrypter.Write (Encrypter.Encrypt NewEncrypter K P rng).1 sinkOk).1).2.2 = none ∧
      (Decrypter.Decrypt
          (Decrypter.Read NewDecrypter
            (Encrypter.Write (Encrypter.Encrypt NewEncrypter K P rng).1 sinkOk).1).1 K).2 =
        Except.ok P := by
  have hs : (rng.take 32).length = 32 := by
    rw [List.length_take]
    omega
  have hn : ((rng.drop 32).take 12).length = 12 := by
    rw [List.length_take, List.length_drop]
    omega
  have hE := Encrypter.Encrypt_default P K rng h
  rw [hE]
  have hW := Encrypter.Write_ready
    ({ NewEncrypter with
        initialized := true
        salt := some (rng.take 32)
        cipher := some ⟨32, GenerateKey K (rng.take 32) 32⟩
        nonce := some ((rng.drop 32).take 12)
        ciphertext := some (gcmSeal (GenerateKey K (rng.take 32) 32)
          ((rng.drop 32).take 12) P []) })
    newCurrentMetadata rfl rfl
  rw [hW]
  refine ⟨_, rfl, rfl, ?_, ?_⟩
  · have hassoc : (newCurrentMetadata.bytes ++ Option.getD (some (rng.take 32)) [] ++
        Option.getD (some ((rng.drop 32).take 12)) [] ++
        Option.getD (some (gcmSeal (GenerateKey K (rng.take 32) 32)
          ((rng.drop 32).take 12) P [])) []) =
      newCurrentMetadata.bytes ++ ((rng.take 32) ++ (((rng.drop 32).take 12) ++
        (gcmSeal (GenerateKey K (rng.take 32) 32) ((rng.drop 32).take 12) P []))) := by
      simp [List.append_assoc]
    rw [hassoc, Decrypter.Read_envelope _ _ _ hs hn]
  · have hassoc : (newCurrentMetadata.bytes ++ Option.getD (some (rng.take 32)) [] ++
        Option.getD (some ((rng.drop 32).take 12)) [] ++
        Option.getD (some (gcmSeal (GenerateKey K (rng.take 32) 32)
          ((rng.drop 32).take 12) P [])) []) =
      newCurrentMetadata.bytes ++ ((rng.take 32) ++ (((rng.drop 32).take 12) ++
        (gcmSeal (GenerateKey K (rng.take 32) 32) ((rng.drop 32).take 12) P []))) := by
      simp [List.append_assoc]
    rw [hassoc, Decrypter.Read_envelope _ _ _ hs hn]
    exact Decrypter.Decrypt_after_load (rng.take 32) ((rng.drop 32).take 12) P K
      newCurrentMetadata

/-- C1 witness: the round trip at a concrete plaintext, passphrase and
random stream. -/
theorem roundtrip_claim_witness :
    44 ≤ (List.range 44).length ∧
    (∃ ct : List Nat,
      (Encrypter.Encrypt NewEncrypter [7] [1, 2, 3] (List.range 44)).2.2 = Except.ok ct ∧
      (Encrypter.Write
          (Encrypter.Encrypt NewEncrypter [7] [1, 2, 3] (List.range 44)).1 sinkOk).2.2 = none ∧
      (Decrypter.Read NewDecrypter
          (Encrypter.Write
            (Encrypter.Encrypt NewEncrypter [7] [1, 2, 3] (List.range 44)).1
            sinkOk).1).2.2 = none ∧
      (Decrypter.Decrypt
          (Decrypter.Read NewDecrypter
            (Encrypter.Write
              (Encrypter.Encrypt NewEncrypter [7] [1, 2, 3] (List.range 44)).1
              sinkOk).1).1 [7]).2 =
        Except.ok [1, 2, 3]) :=
  ⟨by simp, roundtrip_claim [1, 2, 3] [7] (List.range 44) (by simp)⟩

/-- C2: on an all-success sink, `Encrypter.Write` does write the 32 metadata
bytes, the salt, the nonce and the ciphertext in that order — but, because of
the `if`-scope shadowing of the write counters, it returns the byte count `0`
instead of `32 + saltSize + nonceSize + len(ciphertext) = 79`. -/
theorem Encrypter.Write_success_returns_zero :
    (let e : celo := { NewEncrypter with
        initialized := true
        salt := some (List.replicate 32 1)
        nonce := some (List.replicate 12 2)
        ciphertext := some [9, 9, 9] }
     Encrypter.Write e sinkOk =
       (newCurrentMetadata.bytes ++ List.replicate 32 1 ++ List.replicate 12 2 ++ [9, 9, 9],
        0, none) ∧
     (newCurrentMetadata.bytes ++ List.replicate 32 1 ++ List.replicate 12 2 ++
        [9, 9, 9]).length = 32 + 32 + 12 + 3 ∧
     (0 : Nat) ≠ 32 + 32 + 12 + 3) := by
  decide

/-- C3: `DecodeMetadata` consumes exactly 32 bytes and fails with the
`Metadata` kind on a shorter source, but on success it returns the byte count
`0` rather than `32` (the `io.ReadFull` counts are bound to `if`-scoped
variables that shadow the accumulators). -/
theorem DecodeMetadata_success_returns_zero :
    DecodeMetadata (newCurrentMetadata.bytes ++ [5, 6]) =
      (Except.ok newCurrentMetadata, 0, [5, 6]) ∧
    (0 : Nat) ≠ 32 ∧
    (DecodeMetadata (newCurrentMetadata.bytes.take 10)).1 = Except.error Kind.Metadata := by
  decide

/-- C4: on a header whose block-size byte is neither 16 nor 32 (magic and
version valid), `ValidateMetadata` raises the `NonceSize` error kind, not the
`BlockSize` kind the spec names (the `BlockSize` kind is declared in the
errors package but never used in the repository). -/
theorem ValidateMetadata_blockSize_raises_nonceSize_kind :
    ValidateMetadata signatureHeader [1, 32, 17, 12] (List.replicate 20 0) =
      some Kind.NonceSize ∧
    some Kind.NonceSize ≠ some Kind.BlockSize := by
  decide

/-- C5 counterexample: an `Encrypter` whose `initialized` flag is set but
whose nonce and ciphertext are nil does *not* fail with `NotReady` — `Write`
only consults the flag, so the claim as stated is false. -/
theorem Encrypter.Write_nilNonce_no_notReady :
    (let e : celo := { NewEncrypter with initialized := true }
     e.initialized = true ∧ e.nonce = none ∧ e.ciphertext = none ∧
     (Encrypter.Write e sinkOk).2.2 = none ∧
     (Encrypter.Write e sinkOk).1 = newCurrentMetadata.bytes) := by
  decide

/-- C5 (amended): `Encrypter.Write` fails with the `NotReady` kind exactly
when the `initialized` flag is false (nil nonce/ciphertext are not checked),
and in that case nothing is written to the sink. -/
theorem Encrypter.Write_notReady_iff (e : celo) (sink : Nat → Option Nat) :
    (e.initialized = false → Encrypter.Write e sink = ([], 0, some Kind.NotReady)) ∧
    (e.initialized = true → (Encrypter.Write e sink).2.2 ≠ some Kind.NotReady) := by
  constructor
  · intro h
    simp [Encrypter.Write, celo.IsReady, h]
  · intro h
    cases hm : e.metadata <;>
      cases h0 : sink 0 <;> cases h1 : sink 1 <;> cases h2 : sink 2 <;> cases h3 : sink 3 <;>
        simp [Encrypter.Write, celo.IsReady, h, hm, wWrite, h0, h1, h2, h3]

/-- C5 witness: a fresh (never initialized) session writes nothing and gets
the `NotReady` kind. -/
theorem Encrypter.Write_notReady_witness :
    Encrypter.Write NewDecrypter sinkOk = ([], 0, some Kind.NotReady) :=
  (Encrypter.Write_notReady_iff NewDecrypter sinkOk).1 rfl

/-- C6 counterexample: on a random source that cannot fill the salt,
`Encrypter.Init` fails with the `Salt` kind, yet the instance *is* marked
initialized afterwards (`initialized = true` is assigned before the salt is
generated), so the claim as stated is false. -/
theorem Encrypter.Init_failure_isReady_cex :
    (Encrypter.Init NewEncrypter [1] []).2.2 = some Kind.Salt ∧
    ((Encrypter.Init NewEncrypter [1] []).1).IsReady = true := by
  decide

/-- C6 (amended): after any `Encrypter.Init` call — in particular after one
that fails — the instance is marked initialized: the flag is set before salt
generation (and the preserve-key early return requires it already set), so
`IsReady()` is true afterwards. -/
theorem Encrypter.Init_always_initialized (e : celo) (phrase rng : List Nat) :
    ((Encrypter.Init e phrase rng).1).IsReady = true := by
  unfold Encrypter.Init
  by_cases hpk : e.initialized = true ∧ e.preserveKey = true
  · rw [if_pos hpk]
    simp [celo.IsReady, hpk.1]
  · rw [if_neg hpk]
    split
    · simp [celo.IsReady]
    · split <;> simp [celo.IsReady]

/-- C7: with the preserve-key flag set on an already-initialized `Encrypter`,
a further `Init` call returns no error and leaves the whole state — salt and
cached cipher included — unchanged, consuming no random bytes. -/
theorem Encrypter.Init_preserveKey_reuses (e : celo) (phrase rng : List Nat)
    (h1 : e.initialized = true) (h2 : e.preserveKey = true) :
    Encrypter.Init e phrase rng = (e, rng, none) := by
  simp [Encrypter.Init, h1, h2]

/-- C7 witness at a concrete preserve-key session. -/
theorem Encrypter.Init_preserveKey_witness :
    Encrypter.Init { NewEncrypter with initialized := true, preserveKey := true }
        [5] [0, 1, 2] =
      ({ NewEncrypter with initialized := true, preserveKey := true }, [0, 1, 2], none) :=
  Encrypter.Init_preserveKey_reuses _ [5] [0, 1, 2] rfl rfl

/-- C8: `Wipe` clears nonce, ciphertext, salt and the cached cipher, resets
the initialized flag, and leaves the configured salt size, block size, nonce
size and extension untouched. -/
theorem celo.Wipe_clears_and_preserves (c : celo) :
    (celo.Wipe c).nonce = none ∧ (celo.Wipe c).ciphertext = none ∧
    (celo.Wipe c).salt = none ∧ (celo.Wipe c).cipher = none ∧
    (celo.Wipe c).initialized = false ∧
    (celo.Wipe c).saltSize = c.saltSize ∧ (celo.Wipe c).blockSize = c.blockSize ∧
    (celo.Wipe c).nonceSize = c.nonceSize ∧ (celo.Wipe c).ext = c.ext :=
  ⟨rfl, rfl, rfl, rfl, rfl, rfl, rfl, rfl, rfl⟩

/-- C9: the encrypted-name helper appends the dotted extension (adding the
dot only when missing); the decrypted-name helper strips the dotted suffix
exactly when the name ends with it and is not the bare dotted suffix itself;
and at extension `"celo"` the three concrete examples of the spec hold. -/
theorem naming_helpers (base name ext : List Char) (h : ext ≠ []) :
    GetEncryptedFileName ext base = base ++ dotExt ext ∧
    (∀ r, name = r ++ dotExt ext → name ≠ dotExt ext →
      GetDecryptedFileName ext name = r) ∧
    ((¬ (dotExt ext).isSuffixOf name ∨ name = dotExt ext) →
      GetDecryptedFileName ext name = name) ∧
    GetEncryptedFileName Extension "book_draft.md".toList = "book_draft.md.celo".toList ∧
    GetDecryptedFileName Extension "book_draft.md.celo".toList = "book_draft.md".toList ∧
    GetDecryptedFileName Extension "celo".toList = "celo".toList := by
  refine ⟨?_, ?_, ?_, by decide, by decide, by decide⟩
  · simp [GetEncryptedFileName, dotExt, h]
  · intro r hr hne
    have hsuf : (dotExt ext).isSuffixOf name := by
      rw [List.isSuffixOf_iff_suffix, hr]
      exact List.suffix_append r (dotExt ext)
    have hlen : name.length - (dotExt ext).length = r.length := by
      rw [hr]
      simp
    rw [GetDecryptedFileName, if_neg h]
    simp only [dotExt] at *
    rw [if_pos ⟨hsuf, hne⟩, hlen, hr, List.take_left]
  · intro hcase
    rw [GetDecryptedFileName, if_neg h]
    simp only [dotExt] at *
    rw [if_neg]
    rintro ⟨hsuf, hne⟩
    rcases hcase with hno | heq
    · exact hno hsuf
    · exact hne heq

/-- C9 witness: the three concrete examples with the default extension. -/
theorem naming_helpers_witness :
    GetEncryptedFileName Extension "book_draft.md".toList = "book_draft.md.celo".toList ∧
    GetDecryptedFileName Extension "book_draft.md.celo".toList = "book_draft.md".toList ∧
    GetDecryptedFileName Extension "celo".toList = "celo".toList :=
  ⟨(naming_helpers [] "x".toList Extension (by decide)).2.2.2.1,
   (naming_helpers [] "book_draft.md.celo".toList Extension (by decide)).2.2.2.2.1,
   (naming_helpers [] "celo".toList Extension (by decide)).2.2.2.2.2⟩

/-- C10: on a loaded `Decrypter` holding a cached cipher, `Decrypt` never
looks at the passphrase: its result (state and plaintext-or-error alike) is
the same for any two phrases.  Moreover, once a `Decrypt` call has cached a
cipher and failed with the generic `Decrypt` error, every later `Decrypt`
call on the resulting state — with the correct passphrase included — fails
the same way, since the stale cached cipher keeps being used. -/
theorem Decrypt_ignores_phrase_when_cached (d : celo) (h : d.initialized = true) :
    (∀ c p1 p2, d.cipher = some c → Decrypter.Decrypt d p1 = Decrypter.Decrypt d p2) ∧
    (∀ pw p2 d1, d.cipher = none →
      Decrypter.Decrypt d pw = (d1, Except.error Kind.Decrypt) →
      Decrypter.Decrypt d1 p2 = (d1, Except.error Kind.Decrypt)) := by
  constructor
  · intro c p1 p2 hc
    simp [Decrypter.Decrypt, celo.IsReady, h, hc]
  · intro pw p2 d1 hc hd
    rw [Decrypter.Decrypt] at hd
    simp only [celo.IsReady, h, not_true_eq_false, if_false, hc] at hd
    cases hNC : NewCipher d.blockSize d.nonceSize
        (GenerateKey pw (d.salt.getD []) d.blockSize) with
    | error k =>
      rw [Decrypter.initCipher] at hd
      rw [hNC] at hd
      rw [NewCipher] at hNC
      split at hNC
      · exact absurd hNC (by simp)
      · simp at hd hNC
        rw [← hNC] at hd
        exact absurd hd.2 (by simp)
    | ok c =>
      rw [Decrypter.initCipher] at hd
      rw [hNC] at hd
      simp at hd
      obtain ⟨hd1, hres⟩ := hd
      subst hd1
      simp [Decrypter.Decrypt, celo.IsReady, h, hres]

/-- C10 witness: on a concrete loaded session with a cached cipher, two
different passphrases give the same `Decrypt` result. -/
theorem Decrypt_ignores_phrase_witness :
    Decrypter.Decrypt
        { NewDecrypter with initialized := true, cipher := some ⟨32, List.replicate 32 0⟩ }
        [1] =
      Decrypter.Decrypt
        { NewDecrypter with initialized := true, cipher := some ⟨32, List.replicate 32 0⟩ }
        [2] :=
  (Decrypt_ignores_phrase_when_cached
      { NewDecrypter with initialized := true, cipher := some ⟨32, List.replicate 32 0⟩ }
      rfl).1 ⟨32, List.replicate 32 0⟩ [1] [2] rfl

end Celo
